import Mathlib

/-!
# Verification of the Moodify discovery-recommendation pipeline

Shallow embedding of the playlist-generation pipeline:

* `src/src/data/data_processor.py` — `DataProcessor.select_seed_tracks_and_artists`
  and `DataProcessor.filter_tracks`;
* `src/src/api/spotify_api.py` — the scoring / diversity-mixing steps of
  `get_discovery_recommendations` and `add_tracks_to_playlist`;
* `src/data/playlist_data.py` — `PlaylistTracker`;
* `src/main.py` — `generate_playlist`.

Modelling conventions:

* Python floats are modelled by `ℚ` (the constants 0.25, 0.5, 0.85, 0.8, 0.2
  appearing in the source are written as exact rationals);
* Python's stable `sorted(..., key=k, reverse=True)` is modelled by
  `List.insertionSort (sortKeyDesc k)`, which is a stable sort placing larger
  keys first, as Python's sort does;
* Python dicts are modelled by insertion-ordered association lists
  (`List (String × ℚ)`): assignment to a present key updates it in place,
  assignment to a fresh key appends;
* the network client is modelled by an `Env` record holding the data each
  remote call would return; exception outcomes of remote calls are modelled
  by `Option`/`Bool` fields of `Env`.
-/

/-- A catalog track, with the fields the pipeline reads: `id`, `uri`,
`popularity` (`none` models an absent key, read via `track.get('popularity', d)`),
and the ids of the credited artists. -/
structure Track where
  id : String
  uri : String
  popularity : Option Int
  artists : List String
deriving DecidableEq, Repr

/-- The descending-by-key ordering used to model Python's
`sorted(..., key=key, reverse=True)`. -/
def sortKeyDesc {α : Type} {β : Type} [LinearOrder β] (key : α → β) (a b : α) : Prop :=
  key b ≤ key a

instance {α β : Type} [LinearOrder β] (key : α → β) : DecidableRel (sortKeyDesc key) :=
  fun a b => inferInstanceAs (Decidable (key b ≤ key a))

instance {α β : Type} [LinearOrder β] (key : α → β) : IsTotal α (sortKeyDesc key) :=
  ⟨fun a b => le_total (key b) (key a)⟩

instance {α β : Type} [LinearOrder β] (key : α → β) : IsTrans α (sortKeyDesc key) :=
  ⟨fun _ _ _ h1 h2 => le_trans h2 h1⟩

/-- Python dict accumulation `m[k] = m.get(k, 0) + w` on an insertion-ordered
association list: a present key is updated in place, a fresh key is appended. -/
def dictAdd (m : List (String × ℚ)) (k : String) (w : ℚ) : List (String × ℚ) :=
  if k ∈ m.map Prod.fst then
    m.map (fun p => if p.1 = k then (p.1, p.2 + w) else p)
  else m ++ [(k, w)]

/-- Python `m.get(k, 0)` on an association list. -/
def dictGet (m : List (String × ℚ)) (k : String) : ℚ :=
  match m.find? (fun p => decide (p.1 = k)) with
  | some p => p.2
  | none => 0

/-- The `weighted_tracks` dict of `DataProcessor.select_seed_tracks_and_artists`
(`src/src/data/data_processor.py` lines 39-50): each top track at 0-based rank
`i` contributes `(N - i) / N`, each recent track at rank `i` contributes
`((M - i) / M) * 0.5`, summed per track id. -/
def weightedTracks (top recent : List Track) : List (String × ℚ) :=
  recent.enum.foldl
    (fun m p =>
      dictAdd m p.2.id ((((recent.length - p.1 : ℕ) : ℚ) / (recent.length : ℚ)) * (1/2)))
    (top.enum.foldl
      (fun m p => dictAdd m p.2.id (((top.length - p.1 : ℕ) : ℚ) / (top.length : ℚ))) [])

/-- The `artist_weights` dict of `select_seed_tracks_and_artists` (lines 59-63):
an occurrence count per artist id over the concatenation of both input lists. -/
def artistWeights (top recent : List Track) : List (String × ℚ) :=
  (top ++ recent).foldl (fun m t => t.artists.foldl (fun m aid => dictAdd m aid 1) m) []

/-- The `seed_track_artists` set of `select_seed_tracks_and_artists`
(lines 66-71): every artist id credited on any occurrence, in either input
list, of a chosen seed track.  Only membership in this list is used. -/
def seedTrackArtists (top recent : List Track) (seedTrackIds : List String) : List String :=
  seedTrackIds.flatMap (fun tid =>
    ((top ++ recent).filter (fun t => decide (t.id = tid))).flatMap Track.artists)

/-- `DataProcessor.select_seed_tracks_and_artists`
(`src/src/data/data_processor.py` lines 29-83). -/
def select_seed_tracks_and_artists (top recent : List Track)
    (maxSeedTracks maxSeedArtists : Nat) : List String × List String :=
  let sortedTracks :=
    List.insertionSort (sortKeyDesc Prod.snd) (weightedTracks top recent)
  let seedTrackIds := (sortedTracks.take maxSeedTracks).map Prod.fst
  let filteredArtistWeights :=
    (artistWeights top recent).filter
      (fun p => decide (p.1 ∉ seedTrackArtists top recent seedTrackIds))
  let sortedArtists := List.insertionSort (sortKeyDesc Prod.snd) filteredArtistWeights
  (seedTrackIds, (sortedArtists.take maxSeedArtists).map Prod.fst)

/-- The deduplication pass of `DataProcessor.filter_tracks` (lines 98-103):
keep a track if its id has not been seen yet. -/
def removeSeen (seen : List String) : List Track → List Track
  | [] => []
  | t :: ts => if t.id ∈ seen then removeSeen seen ts else t :: removeSeen (t.id :: seen) ts

/-- `DataProcessor.filter_tracks` (`src/src/data/data_processor.py` lines
85-106): drop tracks whose id is excluded, then deduplicate by id keeping the
first occurrence. -/
def filter_tracks (tracks : List Track) (excludeTrackIds : List String) : List Track :=
  removeSeen [] (tracks.filter (fun t => decide (t.id ∉ excludeTrackIds)))

/-- The combined exclusion-and-deduplication loop building
`unique_recommendations` in `get_discovery_recommendations`
(`src/src/api/spotify_api.py` lines 352-357). -/
def uniqueRecsGo (excl seen : List String) : List Track → List Track
  | [] => []
  | t :: ts =>
    if t.id ∉ seen ∧ t.id ∉ excl then t :: uniqueRecsGo excl (t.id :: seen) ts
    else uniqueRecsGo excl seen ts

/-- Entry point of the loop at `src/src/api/spotify_api.py` lines 352-357. -/
def unique_recommendations (recs : List Track) (excl : List String) : List Track :=
  uniqueRecsGo excl [] recs

/-- Spec reading of the gatherer output (refinement target): `\"the subsequence
of the input containing, in original order, exactly the first occurrence of
each track identifier that is not in the exclusion set\"`. -/
def specFirstOccAux (excl seen : List String) : List Track → List Track
  | [] => []
  | t :: ts =>
    if t.id ∈ excl ∨ t.id ∈ seen then specFirstOccAux excl seen ts
    else t :: specFirstOccAux excl (t.id :: seen) ts

/-- Spec reading of exclusion filtering plus first-occurrence deduplication. -/
def specFirstOcc (tracks : List Track) (excl : List String) : List Track :=
  specFirstOccAux excl [] tracks

/-- Per-track audio-descriptor vector (the four fields the scorer reads). -/
structure AudioFeatures where
  danceability : ℚ
  energy : ℚ
  valence : ℚ
  acousticness : ℚ
deriving DecidableEq, Repr

/-- The seed audio profile (`src/src/api/spotify_api.py` lines 265-269):
arithmetic mean of each descriptor over the seed vectors that were returned. -/
def seedAverages (fs : List AudioFeatures) : AudioFeatures :=
  ⟨(fs.map AudioFeatures.danceability).sum / (fs.length : ℚ),
   (fs.map AudioFeatures.energy).sum / (fs.length : ℚ),
   (fs.map AudioFeatures.valence).sum / (fs.length : ℚ),
   (fs.map AudioFeatures.acousticness).sum / (fs.length : ℚ)⟩

/-- `popularity_score = 1 - abs(track.get('popularity', 50) - 60) / 100`
(`src/src/api/spotify_api.py` lines 394 and 400). -/
def popularity_score (t : Track) : ℚ :=
  1 - |((t.popularity.getD 50 : ℤ) : ℚ) - 60| / 100

/-- `similarity_score` (`src/src/api/spotify_api.py` lines 382-392):
`(1 - dance_diff) * 0.25 + (1 - energy_diff) * 0.25 + (1 - valence_diff) * 0.25
+ (1 - acousticness_diff) * 0.25` against the seed averages. -/
def similarity_score (avg f : AudioFeatures) : ℚ :=
  (1 - |f.danceability - avg.danceability|) * (1/4) +
  (1 - |f.energy - avg.energy|) * (1/4) +
  (1 - |f.valence - avg.valence|) * (1/4) +
  (1 - |f.acousticness - avg.acousticness|) * (1/4)

/-- The scoring loop of `get_discovery_recommendations`
(`src/src/api/spotify_api.py` lines 375-401), entered when at least one seed
track has a descriptor vector.  `featuresOf` models the
`track_ids_to_features` map built from the chunked `audio_features` fetches
(`none` models a track whose vector was not returned). -/
def score_recommendations (seedFeatures : List AudioFeatures)
    (featuresOf : String → Option AudioFeatures) (uniqueRecs : List Track) :
    List (Track × ℚ) :=
  uniqueRecs.map fun track =>
    match featuresOf track.id with
    | some features =>
      let similarity :=
        if 0 < seedFeatures.length
        then similarity_score (seedAverages seedFeatures) features else 0
      let pop := popularity_score track
      (track, if 0 < similarity then similarity * (8/10) + pop * (2/10) else pop)
    | none => (track, popularity_score track)

/-- The stable descending sort of the scored list
(`src/src/api/spotify_api.py` line 403). -/
def sort_scored (scored : List (Track × ℚ)) : List (Track × ℚ) :=
  List.insertionSort (sortKeyDesc Prod.snd) scored

/-- The `familiar_candidates` pool of the Diversity Mixer
(`src/src/api/spotify_api.py` lines 426-429): the first 20 recently-played
tracks whose popularity (`track.get('popularity', 0)`) lies in `[40, 85]`. -/
def familiar_candidates (recentTracksList : List Track) : List Track :=
  (recentTracksList.take 20).filter
    (fun t => decide (40 ≤ t.popularity.getD 0 ∧ t.popularity.getD 0 ≤ 85))

/-- The Diversity Mixer step of `get_discovery_recommendations`
(`src/src/api/spotify_api.py` lines 419-443).  `sample` models
`random.sample` applied to the familiar pool: `some fam` is a successful draw
and `none` models the `except` branch (the only statements the `try` guards
are the pool construction and the sampling, and the sampling is where the
spec locates the possible failure).  `int(limit * 0.85)` is modelled as
`limit * 85 / 100` (natural-number floor). -/
def diversity_mix (sortedRecs recentTracksList : List Track) (limit : Nat)
    (sample : List Track → Nat → Option (List Track)) : List Track :=
  if 0 < sortedRecs.length then
    let discoveryLimit := limit * 85 / 100
    let familiarLimit := limit - discoveryLimit
    let diverse := sortedRecs.take discoveryLimit
    let pool := familiar_candidates recentTracksList
    if pool.isEmpty then diverse
    else
      match sample pool (min familiarLimit pool.length) with
      | some familiarTracks => diverse ++ familiarTracks
      | none => sortedRecs.take limit
  else sortedRecs.take limit

/-- `SpotifyAPI.add_tracks_to_playlist` (`src/src/api/spotify_api.py` lines
561-582): an empty uri list returns `False` before any remote call; otherwise
the chunks are sent and the outcome is the remote result (`remote_ok` models
whether the chunked `playlist_add_items` calls all succeed). -/
def add_tracks_to_playlist (track_uris : List String) (remote_ok : Bool) : Bool :=
  if track_uris.isEmpty then false else remote_ok

/-- The chunks of `track_uris` sent to `playlist_add_items`, one remote call
per chunk (`src/src/api/spotify_api.py` lines 572-576, `chunk_size = 100`).
An empty uri list produces no chunk, hence no remote call. -/
def add_tracks_chunks : List String → List (List String)
  | [] => []
  | u :: us => ((u :: us).take 100) :: add_tracks_chunks ((u :: us).drop 100)
termination_by l => l.length
decreasing_by simp; omega

/-- The optional metadata stored with a history record
(`src/main.py` lines 206-210). -/
structure PlaylistMeta where
  seed_tracks : List String
  seed_artists : List String
  filter_count : Nat
deriving DecidableEq, Repr

/-- A History Store record (`src/data/playlist_data.py` lines 44-53).
`created_at` is an ISO timestamp in the source; since lexicographic order on
ISO timestamps is chronological order, it is modelled as a natural number. -/
structure PlaylistEntry where
  id : String
  name : String
  created_at : Nat
  tracks : List String
  metadata : Option PlaylistMeta
deriving DecidableEq, Repr

/-- `PlaylistTracker.get_recent_playlists` (`src/data/playlist_data.py` lines
61-74): sort the history newest-first (stable, by `created_at`) and take the
first `count` records. -/
def get_recent_playlists (history : List PlaylistEntry) (count : Nat) : List PlaylistEntry :=
  (List.insertionSort (sortKeyDesc PlaylistEntry.created_at) history).take count

/-- First-occurrence deduplication of a string list.  The source computes
`list(set(track_ids))`, whose order is unspecified; the only consumer
(`src/main.py` line 100) immediately rebuilds a set, so only membership
matters and a first-occurrence order is chosen for the model. -/
def dedupStr (seen : List String) : List String → List String
  | [] => []
  | s :: ss => if s ∈ seen then dedupStr seen ss else s :: dedupStr (s :: seen) ss

/-- `PlaylistTracker.get_recent_track_ids` (`src/data/playlist_data.py` lines
76-90): concatenate the track ids of the most recent `weeks` records — the
`weeks` argument is passed to `get_recent_playlists` as a record count — and
deduplicate. -/
def get_recent_track_ids (history : List PlaylistEntry) (weeks : Nat) : List String :=
  dedupStr [] ((get_recent_playlists history weeks).foldl (fun acc p => acc ++ p.tracks) [])

/-- Spec reading of the second exclusion pass (refinement target): the track
ids of every history record whose creation time lies inside the time window
of the most recent `weeks` weeks before `now` (one week = 604800 seconds). -/
def spec_week_window_track_ids (history : List PlaylistEntry) (now weeks : Nat) : List String :=
  (history.filter
    (fun p => decide (p.created_at ≤ now ∧ now ≤ p.created_at + weeks * 604800))).flatMap
    PlaylistEntry.tracks

/-- `PlaylistTracker.add_playlist` (`src/data/playlist_data.py` lines 34-59):
append one record to the history. -/
def add_playlist (history : List PlaylistEntry) (playlist_id name : String)
    (now : Nat) (track_ids : List String) (metadata : Option PlaylistMeta) :
    List PlaylistEntry :=
  history ++ [⟨playlist_id, name, now, track_ids, metadata⟩]

/-- The parsed CLI arguments of `src/main.py` (lines 33-40). -/
structure Args where
  name : Option String
  tracks : Nat
  public : Bool
  dry_run : Bool
deriving DecidableEq, Repr

/-- The environment of one run of `generate_playlist`: the data each remote
call would return.  `create_result = none` models a failed
`create_playlist` call, `add_ok` models the outcome of the remote
`playlist_add_items` calls, `regular_recs` is the final
`get_recommendations` fallback (which returns `[]` on any remote error). -/
structure Env where
  top_tracks : List Track
  recent_tracks : List Track
  discovery_recs : List Track
  search_recs : List Track
  regular_recs : List Track
  history : List PlaylistEntry
  create_result : Option String
  add_ok : Bool
  today : String
  now : Nat
deriving Repr

/-- The value returned by a completed run (`src/main.py` lines 171-177 and
254-260), reduced to the fields the claims read. -/
structure RunResult where
  id : String
  name : String
  track_count : Nat
  dry_run : Bool
deriving DecidableEq, Repr

/-- The observable outcome of one run of `generate_playlist`: the returned
value (`none` models `return None`), which mutating catalog calls were
issued, the outcome of the track-addition call (`none` when it was never
made), whether a history record was appended and the resulting history, and
the intermediate data the pipeline computed before the dry-run branch. -/
structure RunOutcome where
  result : Option RunResult
  create_called : Bool
  add_called : Bool
  add_result : Option Bool
  history_appended : Bool
  final_history : List PlaylistEntry
  planned_tracks : List Track
  seed_track_ids : List String
  seed_artist_ids : List String
  previous_track_ids : List String
  playlist_name : String
deriving Repr

/-- Outcome of a run that fails before reaching the dry-run branch
(`src/main.py` lines 56-58 and 95-97). -/
def mkFail (env : Env) : RunOutcome :=
  { result := none, create_called := false, add_called := false, add_result := none,
    history_appended := false, final_history := env.history, planned_tracks := [],
    seed_track_ids := [], seed_artist_ids := [], previous_track_ids := [],
    playlist_name := "" }

/-- The recommendation chain of `src/main.py` lines 69-97: the discovery
recommendations, falling back to the search-based recommendations, falling
back to the plain recommendations endpoint (each fallback used only when the
previous source returned nothing). -/
def effective_recommendations (env : Env) : List Track :=
  let recs1 := env.discovery_recs
  let recs2 := if recs1.isEmpty then env.search_recs else recs1
  if recs2.isEmpty then env.regular_recs else recs2

/-- `generate_playlist` (`src/main.py` lines 42-264): fetch listening data,
select seeds, take the first non-empty recommendation source, filter against
the most recent history record, truncate, then either report (dry run) or
create the playlist, add the tracks, and append a history record.  Email
notification is effect-free for the claims and is not modelled. -/
def generate_playlist (env : Env) (args : Args) : RunOutcome :=
  if env.top_tracks.isEmpty ∧ env.recent_tracks.isEmpty then mkFail env
  else
    let seeds := select_seed_tracks_and_artists env.top_tracks env.recent_tracks 3 2
    let recs3 := effective_recommendations env
    if recs3.isEmpty then mkFail env
    else
      let previousTrackIds := get_recent_track_ids env.history 1
      let filteredTracks := filter_tracks recs3 previousTrackIds
      let playlistTracks0 := filteredTracks.take args.tracks
      let playlistTracks :=
        if playlistTracks0.isEmpty then recs3.take args.tracks else playlistTracks0
      let playlistName :=
        match args.name with
        | some n => n
        | none => "Weekly Discoveries - " ++ env.today
      if args.dry_run then
        { result := some ⟨"dry-run", playlistName, playlistTracks.length, true⟩,
          create_called := false, add_called := false, add_result := none,
          history_appended := false, final_history := env.history,
          planned_tracks := playlistTracks, seed_track_ids := seeds.1,
          seed_artist_ids := seeds.2, previous_track_ids := previousTrackIds,
          playlist_name := playlistName }
      else
        match env.create_result with
        | none =>
          { result := none, create_called := true, add_called := false, add_result := none,
            history_appended := false, final_history := env.history,
            planned_tracks := playlistTracks, seed_track_ids := seeds.1,
            seed_artist_ids := seeds.2, previous_track_ids := previousTrackIds,
            playlist_name := playlistName }
        | some pid =>
          let trackUris := playlistTracks.map Track.uri
          let trackIds := playlistTracks.map Track.id
          if add_tracks_to_playlist trackUris env.add_ok then
            { result := some ⟨pid, playlistName, playlistTracks.length, false⟩,
              create_called := true, add_called := true, add_result := some true,
              history_appended := true,
              final_history :=
                add_playlist env.history pid playlistName env.now trackIds
                  (some ⟨seeds.1, seeds.2, previousTrackIds.length⟩),
              planned_tracks := playlistTracks, seed_track_ids := seeds.1,
              seed_artist_ids := seeds.2, previous_track_ids := previousTrackIds,
              playlist_name := playlistName }
          else
            { result := none, create_called := true, add_called := true,
              add_result := some false, history_appended := false,
              final_history := env.history,
              planned_tracks := playlistTracks, seed_track_ids := seeds.1,
              seed_artist_ids := seeds.2, previous_track_ids := previousTrackIds,
              playlist_name := playlistName }

/-- The weight the spec assigns to a track identifier
(spec §4.1): the sum of `(N - rank) / N` over its occurrences in the
top-tracks list plus `((M - rank) / M) * 0.5` over its occurrences in the
recent-tracks list. -/
def specTrackWeight (top recent : List Track) (tid : String) : ℚ :=
  ((top.enum.filter (fun p => decide (p.2.id = tid))).map
    (fun p => ((top.length - p.1 : ℕ) : ℚ) / (top.length : ℚ))).sum +
  ((recent.enum.filter (fun p => decide (p.2.id = tid))).map
    (fun p => (((recent.length - p.1 : ℕ) : ℚ) / (recent.length : ℚ)) * (1/2))).sum

/-! ## Association-list (Python dict) lemmas -/

theorem dictGet_nil (k : String) : dictGet [] k = 0 := rfl

theorem dictGet_cons (p : String × ℚ) (m : List (String × ℚ)) (k : String) :
    dictGet (p :: m) k = if p.1 = k then p.2 else dictGet m k := by
  by_cases h : p.1 = k <;> simp [dictGet, List.find?, h]

theorem dictGet_eq_zero_of_not_mem {m : List (String × ℚ)} {k : String}
    (h : k ∉ m.map Prod.fst) : dictGet m k = 0 := by
  induction m with
  | nil => rfl
  | cons p m ih =>
    simp only [List.map_cons, List.mem_cons, not_or] at h
    rw [dictGet_cons, if_neg (fun hh => h.1 hh.symm), ih h.2]

theorem dictGet_append (m m2 : List (String × ℚ)) (k : String) :
    dictGet (m ++ m2) k = if k ∈ m.map Prod.fst then dictGet m k else dictGet m2 k := by
  induction m with
  | nil => simp
  | cons p m ih =>
    by_cases h : p.1 = k
    · simp [dictGet_cons, h]
    · have hk : ¬k = p.1 := fun hh => h hh.symm
      simp only [List.cons_append, dictGet_cons, if_neg h, ih, List.map_cons, List.mem_cons]
      by_cases hm : k ∈ m.map Prod.fst
      · rw [if_pos hm, if_pos (Or.inr hm)]
      · rw [if_neg hm, if_neg (fun hh => hh.elim hk hm)]

theorem dictGet_map_update_self (m : List (String × ℚ)) (k : String) (w : ℚ)
    (hk : k ∈ m.map Prod.fst) :
    dictGet (m.map (fun p => if p.1 = k then (p.1, p.2 + w) else p)) k
      = dictGet m k + w := by
  induction m with
  | nil => simp at hk
  | cons p m ih =>
    by_cases hpk : p.1 = k
    · simp [List.map_cons, hpk, dictGet_cons]
    · have hk2 : k ∈ m.map Prod.fst := by
        simp only [List.map_cons, List.mem_cons] at hk
        exact hk.resolve_left (fun hh => hpk hh.symm)
      simp only [List.map_cons, if_neg hpk, dictGet_cons, if_neg hpk, ih hk2]

theorem dictGet_map_update_other (m : List (String × ℚ)) (k q : String) (w : ℚ)
    (hq : q ≠ k) :
    dictGet (m.map (fun p => if p.1 = k then (p.1, p.2 + w) else p)) q
      = dictGet m q := by
  induction m with
  | nil => rfl
  | cons p m ih =>
    by_cases hpq : p.1 = q
    · have hpk : ¬p.1 = k := fun hh => hq ((hpq.symm).trans hh)
      simp [List.map_cons, if_neg hpk, dictGet_cons, hpq, hq]
    · have hfst : (if p.1 = k then (p.1, p.2 + w) else p).1 = p.1 := by
        by_cases hpk : p.1 = k <;> simp [hpk]
      rw [List.map_cons, dictGet_cons, hfst, if_neg hpq, ih, dictGet_cons, if_neg hpq]

theorem dictGet_dictAdd (m : List (String × ℚ)) (k q : String) (w : ℚ) :
    dictGet (dictAdd m k w) q = dictGet m q + if q = k then w else 0 := by
  unfold dictAdd
  by_cases hk : k ∈ m.map Prod.fst
  · rw [if_pos hk]
    by_cases hq : q = k
    · subst hq; rw [dictGet_map_update_self m q w hk, if_pos rfl]
    · rw [dictGet_map_update_other m k q w hq, if_neg hq, add_zero]
  · rw [if_neg hk, dictGet_append]
    by_cases hq : q ∈ m.map Prod.fst
    · have hqk : ¬q = k := fun h => hk (h ▸ hq)
      rw [if_pos hq, if_neg hqk, add_zero]
    · rw [if_neg hq, dictGet_eq_zero_of_not_mem hq, dictGet_cons, dictGet_nil, zero_add]
      by_cases hqk : q = k
      · rw [if_pos hqk.symm, if_pos hqk]
      · rw [if_neg (fun hh => hqk hh.symm), if_neg hqk]

/-- Keys of `dictAdd`: unchanged for a present key, the new key appended for a
fresh one. -/
theorem dictAdd_keys (m : List (String × ℚ)) (k : String) (w : ℚ) :
    (dictAdd m k w).map Prod.fst =
      if k ∈ m.map Prod.fst then m.map Prod.fst else m.map Prod.fst ++ [k] := by
  unfold dictAdd
  by_cases hk : k ∈ m.map Prod.fst
  · rw [if_pos hk, if_pos hk, List.map_map]
    congr 1
    funext p
    by_cases hpk : p.1 = k <;> simp [hpk]
  · rw [if_neg hk, if_neg hk]
    simp

theorem dictAdd_keys_nodup {m : List (String × ℚ)} {k : String} {w : ℚ}
    (h : (m.map Prod.fst).Nodup) : ((dictAdd m k w).map Prod.fst).Nodup := by
  rw [dictAdd_keys]
  by_cases hk : k ∈ m.map Prod.fst
  · rwa [if_pos hk]
  · rw [if_neg hk]
    simpa using List.Nodup.append h (List.nodup_singleton k) (by simpa using hk)

theorem mem_dictAdd_keys (m : List (String × ℚ)) (k q : String) (w : ℚ) :
    q ∈ (dictAdd m k w).map Prod.fst ↔ q ∈ m.map Prod.fst ∨ q = k := by
  rw [dictAdd_keys]
  by_cases hk : k ∈ m.map Prod.fst
  · rw [if_pos hk]
    constructor
    · exact Or.inl
    · rintro (h | rfl)
      · exact h
      · exact hk
  · rw [if_neg hk]
    simp

/-- The value a fold of `dictAdd` assigns to a key: the starting value plus
the sum of the weights of the elements with that key. -/
theorem dictGet_foldl {α : Type} (key : α → String) (w : α → ℚ) (l : List α)
    (m0 : List (String × ℚ)) (q : String) :
    dictGet (l.foldl (fun m p => dictAdd m (key p) (w p)) m0) q
      = dictGet m0 q + ((l.filter (fun p => decide (key p = q))).map w).sum := by
  induction l generalizing m0 with
  | nil => simp
  | cons p l ih =>
    rw [List.foldl_cons, ih, dictGet_dictAdd]
    by_cases h : key p = q
    · rw [if_pos h.symm, List.filter_cons_of_pos (by simp [h]), List.map_cons, List.sum_cons]
      ring
    · rw [if_neg (fun hh => h hh.symm), add_zero, List.filter_cons_of_neg (by simp [h])]

theorem mem_foldl_dictAdd_keys {α : Type} (key : α → String) (w : α → ℚ) (l : List α)
    (m0 : List (String × ℚ)) (q : String) :
    q ∈ (l.foldl (fun m p => dictAdd m (key p) (w p)) m0).map Prod.fst
      ↔ q ∈ m0.map Prod.fst ∨ q ∈ l.map key := by
  induction l generalizing m0 with
  | nil => simp
  | cons p l ih =>
    rw [List.foldl_cons, ih, mem_dictAdd_keys]
    simp only [List.map_cons, List.mem_cons]
    tauto

theorem foldl_dictAdd_keys_nodup {α : Type} (key : α → String) (w : α → ℚ) (l : List α)
    (m0 : List (String × ℚ)) (h : (m0.map Prod.fst).Nodup) :
    ((l.foldl (fun m p => dictAdd m (key p) (w p)) m0).map Prod.fst).Nodup := by
  induction l generalizing m0 with
  | nil => exact h
  | cons p l ih => exact ih _ (dictAdd_keys_nodup h)

/-- A fold of `dictAdd` over elements whose keys are fresh and pairwise
distinct just appends the key-weight pairs in order. -/
theorem foldl_dictAdd_fresh {α : Type} (key : α → String) (w : α → ℚ) :
    ∀ (l : List α) (m0 : List (String × ℚ)),
      (∀ p ∈ l, key p ∉ m0.map Prod.fst) → (l.map key).Nodup →
      l.foldl (fun m p => dictAdd m (key p) (w p)) m0
        = m0 ++ l.map (fun p => (key p, w p)) := by
  intro l
  induction l with
  | nil => intro m0 _ _; simp
  | cons p l ih =>
    intro m0 hfresh hnd
    have hp : key p ∉ m0.map Prod.fst := hfresh p (List.mem_cons_self p l)
    rw [List.foldl_cons]
    have hstep : dictAdd m0 (key p) (w p) = m0 ++ [(key p, w p)] := by
      unfold dictAdd; rw [if_neg hp]
    rw [hstep]
    simp only [List.map_cons, List.nodup_cons] at hnd
    have hfresh2 : ∀ x ∈ l, key x ∉ (m0 ++ [(key p, w p)]).map Prod.fst := by
      intro x hx
      simp only [List.map_append, List.mem_append, List.map_cons, List.map_nil,
        List.mem_singleton, not_or]
      refine ⟨hfresh x (List.mem_cons_of_mem p hx), fun hh => hnd.1 ?_⟩
      rw [← hh]
      exact List.mem_map_of_mem key hx
    rw [ih (m0 ++ [(key p, w p)]) hfresh2 hnd.2, List.append_assoc]
    rfl

/-- A key of a duplicate-free association list reads back its value. -/
theorem dictGet_of_mem_nodup {m : List (String × ℚ)} {p : String × ℚ}
    (hnd : (m.map Prod.fst).Nodup) (hp : p ∈ m) : dictGet m p.1 = p.2 := by
  induction m with
  | nil => simp at hp
  | cons x m ih =>
    simp only [List.map_cons, List.nodup_cons] at hnd
    rcases List.mem_cons.mp hp with rfl | hm
    · rw [dictGet_cons, if_pos rfl]
    · have hx : x.1 ≠ p.1 := by
        intro hh
        exact hnd.1 (hh ▸ List.mem_map_of_mem Prod.fst hm)
      rw [dictGet_cons, if_neg hx, ih hnd.2 hm]

/-! ## Filtering and deduplication (C8) -/

theorem removeSeen_filter_eq_spec (excl : List String) :
    ∀ (l : List Track) (seen : List String),
      removeSeen seen (l.filter (fun t => decide (t.id ∉ excl))) = specFirstOccAux excl seen l := by
  intro l
  induction l with
  | nil => intro seen; rfl
  | cons t ts ih =>
    intro seen
    by_cases h1 : t.id ∈ excl
    · rw [List.filter_cons_of_neg (by simp [h1]), ih, specFirstOccAux,
        if_pos (Or.inl h1)]
    · rw [List.filter_cons_of_pos (by simp [h1])]
      by_cases h2 : t.id ∈ seen
      · rw [removeSeen, if_pos h2, ih, specFirstOccAux, if_pos (Or.inr h2)]
      · rw [removeSeen, if_neg h2, ih, specFirstOccAux,
          if_neg (by rintro (h | h); exact h1 h; exact h2 h)]

theorem uniqueRecsGo_eq_spec (excl : List String) :
    ∀ (l : List Track) (seen : List String),
      uniqueRecsGo excl seen l = specFirstOccAux excl seen l := by
  intro l
  induction l with
  | nil => intro seen; rfl
  | cons t ts ih =>
    intro seen
    by_cases h : t.id ∈ excl ∨ t.id ∈ seen
    · rw [uniqueRecsGo, if_neg (by rintro ⟨hs, he⟩; rcases h with h | h; exact he h; exact hs h),
        ih, specFirstOccAux, if_pos h]
    · rw [not_or] at h
      rw [uniqueRecsGo, if_pos ⟨h.2, h.1⟩, ih, specFirstOccAux, if_neg (by rw [not_or]; exact h)]

theorem specFirstOccAux_not_excl (excl : List String) :
    ∀ (l : List Track) (seen : List String) (t : Track),
      t ∈ specFirstOccAux excl seen l → t.id ∉ excl := by
  intro l
  induction l with
  | nil => intro seen t ht; simp [specFirstOccAux] at ht
  | cons x ts ih =>
    intro seen t ht
    by_cases h : x.id ∈ excl ∨ x.id ∈ seen
    · rw [specFirstOccAux, if_pos h] at ht
      exact ih seen t ht
    · rw [specFirstOccAux, if_neg h] at ht
      rcases List.mem_cons.mp ht with rfl | hm
      · exact fun he => h (Or.inl he)
      · exact ih _ t hm

theorem specFirstOccAux_nodup (excl : List String) :
    ∀ (l : List Track) (seen : List String),
      ((specFirstOccAux excl seen l).map Track.id).Nodup
      ∧ ∀ x ∈ (specFirstOccAux excl seen l).map Track.id, x ∉ seen := by
  intro l
  induction l with
  | nil => intro seen; simp [specFirstOccAux]
  | cons t ts ih =>
    intro seen
    by_cases h : t.id ∈ excl ∨ t.id ∈ seen
    · rw [specFirstOccAux, if_pos h]
      exact ih seen
    · rw [specFirstOccAux, if_neg h]
      have hper := ih (t.id :: seen)
      constructor
      · simp only [List.map_cons, List.nodup_cons]
        exact ⟨fun hm => (hper.2 t.id hm) (List.mem_cons_self _ _), hper.1⟩
      · intro x hx
        simp only [List.map_cons, List.mem_cons] at hx
        rcases hx with rfl | hm
        · exact fun hs => h (Or.inr hs)
        · exact fun hs => (hper.2 x hm) (List.mem_cons_of_mem _ hs)

/-- C8: for every input track list and exclusion set, `filter_tracks` (and the
equivalent collection loop of the gatherer) returns the subsequence of the
input keeping, in original order, exactly the first occurrence of each track
id that is not excluded; hence the output has no excluded id and no duplicate
ids. -/
theorem c8_filter_dedup_first_occurrence (tracks : List Track) (excl : List String) :
    filter_tracks tracks excl = specFirstOcc tracks excl
    ∧ unique_recommendations tracks excl = specFirstOcc tracks excl
    ∧ (∀ t ∈ filter_tracks tracks excl, t.id ∉ excl)
    ∧ ((filter_tracks tracks excl).map Track.id).Nodup := by
  have h1 : filter_tracks tracks excl = specFirstOcc tracks excl :=
    removeSeen_filter_eq_spec excl tracks []
  refine ⟨h1, uniqueRecsGo_eq_spec excl tracks [], ?_, ?_⟩
  · rw [h1]
    exact fun t ht => specFirstOccAux_not_excl excl tracks [] t ht
  · rw [h1]
    exact (specFirstOccAux_nodup excl tracks []).1

/-! ## Seed-artist diversity (C9) -/

/-- C9: for every pair of input lists, no artist id selected as a seed artist
is credited on any occurrence (in either list) of a chosen seed track: the
seed-artist candidates are filtered against `seed_track_artists`, and that set
contains every artist credited on a seed track occurrence. -/
theorem c9_seed_artists_disjoint (top recent : List Track) (maxT maxA : Nat) :
    (∀ a ∈ (select_seed_tracks_and_artists top recent maxT maxA).2,
        ∀ t ∈ top ++ recent,
          t.id ∈ (select_seed_tracks_and_artists top recent maxT maxA).1 →
          a ∉ t.artists)
    ∧ (∀ a ∈ (select_seed_tracks_and_artists top recent maxT maxA).2,
        a ∉ seedTrackArtists top recent (select_seed_tracks_and_artists top recent maxT maxA).1) := by
  have hnotin : ∀ a ∈ (select_seed_tracks_and_artists top recent maxT maxA).2,
      a ∉ seedTrackArtists top recent (select_seed_tracks_and_artists top recent maxT maxA).1 := by
    intro a ha
    simp only [select_seed_tracks_and_artists] at ha ⊢
    obtain ⟨p, hp, rfl⟩ := List.mem_map.mp ha
    have hp2 := List.mem_of_mem_take hp
    rw [List.mem_insertionSort] at hp2
    have := (List.mem_filter.mp hp2).2
    simpa using this
  have hcover : ∀ t ∈ top ++ recent,
      t.id ∈ (select_seed_tracks_and_artists top recent maxT maxA).1 →
      ∀ a ∈ t.artists,
        a ∈ seedTrackArtists top recent (select_seed_tracks_and_artists top recent maxT maxA).1 := by
    intro t ht hid a hart
    unfold seedTrackArtists
    rw [List.mem_flatMap]
    refine ⟨t.id, hid, ?_⟩
    rw [List.mem_flatMap]
    exact ⟨t, List.mem_filter.mpr ⟨ht, by simp⟩, hart⟩
  refine ⟨?_, hnotin⟩
  intro a ha t ht hid hart
  exact hnotin a ha (hcover t ht hid a hart)

/-! ## Seed-track weighting (C7, C6) -/

theorem weightedTracks_dictGet (top recent : List Track) (tid : String) :
    dictGet (weightedTracks top recent) tid = specTrackWeight top recent tid := by
  unfold weightedTracks specTrackWeight
  rw [dictGet_foldl (fun p : ℕ × Track => p.2.id)
      (fun p : ℕ × Track => (((recent.length - p.1 : ℕ) : ℚ) / (recent.length : ℚ)) * (1/2)),
    dictGet_foldl (fun p : ℕ × Track => p.2.id)
      (fun p : ℕ × Track => ((top.length - p.1 : ℕ) : ℚ) / (top.length : ℚ)),
    dictGet_nil, zero_add]

theorem weightedTracks_keys_nodup (top recent : List Track) :
    ((weightedTracks top recent).map Prod.fst).Nodup := by
  unfold weightedTracks
  exact foldl_dictAdd_keys_nodup (fun p => p.2.id) _ recent.enum _
    (foldl_dictAdd_keys_nodup (fun p => p.2.id) _ top.enum [] (by simp))

theorem weightedTracks_keys_mem (top recent : List Track) (tid : String) :
    tid ∈ (weightedTracks top recent).map Prod.fst ↔
      tid ∈ top.map Track.id ∨ tid ∈ recent.map Track.id := by
  unfold weightedTracks
  rw [mem_foldl_dictAdd_keys (fun p : ℕ × Track => p.2.id)
      (fun p : ℕ × Track => (((recent.length - p.1 : ℕ) : ℚ) / (recent.length : ℚ)) * (1/2)),
    mem_foldl_dictAdd_keys (fun p : ℕ × Track => p.2.id)
      (fun p : ℕ × Track => ((top.length - p.1 : ℕ) : ℚ) / (top.length : ℚ))]
  have henum : ∀ l : List Track, l.enum.map (fun p : ℕ × Track => p.2.id) = l.map Track.id := by
    intro l
    rw [show (fun p : ℕ × Track => p.2.id) = Track.id ∘ Prod.snd from rfl, ← List.map_map,
      List.enum_eq_enumFrom, List.enumFrom_map_snd]
  rw [henum, henum]
  simp

/-- C7: the weight dict accumulates, per track id, exactly the spec's sum of
`(N - rank)/N` over top-track occurrences plus `((M - rank)/M) * 0.5` over
recent-track occurrences; the dict's keys are exactly the ids occurring in
either list; and the chosen seed tracks are `max_seed_tracks` ids sorted
descending by that accumulated weight, every id left out weighing no more
than every id chosen. -/
theorem c7_seed_track_weighting (top recent : List Track) (maxT maxA : Nat) :
    (∀ tid, dictGet (weightedTracks top recent) tid = specTrackWeight top recent tid)
    ∧ (∀ tid, tid ∈ (weightedTracks top recent).map Prod.fst ↔
        tid ∈ top.map Track.id ∨ tid ∈ recent.map Track.id)
    ∧ ((select_seed_tracks_and_artists top recent maxT maxA).1).Pairwise
        (fun a b => specTrackWeight top recent b ≤ specTrackWeight top recent a)
    ∧ (∀ tid, tid ∈ (weightedTracks top recent).map Prod.fst →
        tid ∉ (select_seed_tracks_and_artists top recent maxT maxA).1 →
        ∀ s ∈ (select_seed_tracks_and_artists top recent maxT maxA).1,
          specTrackWeight top recent tid ≤ specTrackWeight top recent s)
    ∧ ((select_seed_tracks_and_artists top recent maxT maxA).1).length
        = min maxT (weightedTracks top recent).length
    ∧ ((select_seed_tracks_and_artists top recent maxT maxA).1).Nodup := by
  have hnd := weightedTracks_keys_nodup top recent
  have hw := weightedTracks_dictGet top recent
  have hperm : List.Perm
      (List.insertionSort (sortKeyDesc Prod.snd) (weightedTracks top recent))
      (weightedTracks top recent) := List.perm_insertionSort _ _
  have hsorted : (List.insertionSort (sortKeyDesc Prod.snd) (weightedTracks top recent)).Pairwise
      (sortKeyDesc (Prod.snd : String × ℚ → ℚ)) :=
    List.sorted_insertionSort _ _
  have hsortnd : ((List.insertionSort (sortKeyDesc Prod.snd)
      (weightedTracks top recent)).map Prod.fst).Nodup :=
    ((hperm.map Prod.fst).nodup_iff).mpr hnd
  have hval : ∀ p ∈ List.insertionSort (sortKeyDesc Prod.snd) (weightedTracks top recent),
      specTrackWeight top recent p.1 = p.2 := by
    intro p hp
    rw [← hw p.1]
    exact dictGet_of_mem_nodup hnd ((List.mem_insertionSort _).mp hp)
  refine ⟨hw, weightedTracks_keys_mem top recent, ?_, ?_, ?_, ?_⟩
  · simp only [select_seed_tracks_and_artists]
    rw [List.pairwise_map]
    have htake : ((List.insertionSort (sortKeyDesc Prod.snd)
        (weightedTracks top recent)).take maxT).Pairwise
        (sortKeyDesc (Prod.snd : String × ℚ → ℚ)) :=
      List.Pairwise.sublist (List.take_sublist maxT _) hsorted
    refine List.Pairwise.imp_of_mem ?_ htake
    intro p q hp hq hr
    rw [hval p (List.mem_of_mem_take hp), hval q (List.mem_of_mem_take hq)]
    exact hr
  · intro tid htid hnotsel s hs
    simp only [select_seed_tracks_and_artists] at hnotsel hs
    obtain ⟨p, hp, hp1⟩ := List.mem_map.mp
      (((hperm.map Prod.fst).mem_iff).mpr htid)
    have hptd : p ∈ (List.insertionSort (sortKeyDesc Prod.snd)
        (weightedTracks top recent)).take maxT
        ∨ p ∈ (List.insertionSort (sortKeyDesc Prod.snd)
        (weightedTracks top recent)).drop maxT := by
      rw [← List.mem_append, List.take_append_drop]
      exact hp
    rcases hptd with hptake | hpdrop
    · exact absurd (hp1 ▸ List.mem_map_of_mem Prod.fst hptake) hnotsel
    · obtain ⟨q, hq, hq1⟩ := List.mem_map.mp hs
      have hrel : sortKeyDesc (Prod.snd : String × ℚ → ℚ) q p :=
        List.Sorted.rel_of_mem_take_of_mem_drop hsorted hq hpdrop
      rw [← hp1, ← hq1, hval p hp, hval q (List.mem_of_mem_take hq)]
      exact hrel
  · simp only [select_seed_tracks_and_artists]
    rw [List.length_map, List.length_take, List.length_insertionSort]
  · simp only [select_seed_tracks_and_artists]
    have hsub : List.Sublist
        (((List.insertionSort (sortKeyDesc Prod.snd)
          (weightedTracks top recent)).take maxT).map Prod.fst)
        ((List.insertionSort (sortKeyDesc Prod.snd)
          (weightedTracks top recent)).map Prod.fst) :=
      List.Sublist.map Prod.fst (List.take_sublist maxT _)
    exact hsortnd.sublist hsub

theorem pairwise_fst_lt_enumFrom {α : Type} : ∀ (n : ℕ) (l : List α),
    (l.enumFrom n).Pairwise (fun p q => p.1 < q.1) := by
  intro n l
  induction l generalizing n with
  | nil => simp
  | cons a l ih =>
    rw [List.enumFrom]
    refine List.Pairwise.cons ?_ (ih (n + 1))
    intro q hq
    have : ∀ (m : ℕ) (l2 : List α) (q : ℕ × α), q ∈ l2.enumFrom m → m ≤ q.1 := by
      intro m l2
      induction l2 generalizing m with
      | nil => intro q hq; simp at hq
      | cons b l2 ih2 =>
        intro q hq
        rw [List.enumFrom] at hq
        rcases List.mem_cons.mp hq with rfl | hm
        · exact le_refl _
        · exact le_trans (Nat.le_succ m) (ih2 (m + 1) q hm)
    exact lt_of_lt_of_le (Nat.lt_succ_self n) (this (n + 1) l q hq)

theorem enum_map_track_id (l : List Track) :
    l.enum.map (fun p : ℕ × Track => p.2.id) = l.map Track.id := by
  rw [show (fun p : ℕ × Track => p.2.id) = Track.id ∘ Prod.snd from rfl, ← List.map_map,
    List.enum_eq_enumFrom, List.enumFrom_map_snd]

/-- With an empty recent-tracks list and duplicate-free top-track ids, the
weight dict is the top list's (id, weight) pairs in list order. -/
theorem weightedTracks_no_recent {top : List Track} (hnd : (top.map Track.id).Nodup) :
    weightedTracks top []
      = top.enum.map (fun p : ℕ × Track =>
          (p.2.id, ((top.length - p.1 : ℕ) : ℚ) / (top.length : ℚ))) := by
  unfold weightedTracks
  rw [show ([] : List Track).enum = [] from rfl, List.foldl_nil]
  exact foldl_dictAdd_fresh (fun p : ℕ × Track => p.2.id)
    (fun p : ℕ × Track => ((top.length - p.1 : ℕ) : ℚ) / (top.length : ℚ))
    top.enum [] (by simp) (by rw [enum_map_track_id]; exact hnd)

/-- C6 amended: for a non-empty top-tracks list whose entries have pairwise
distinct ids and an empty recent-tracks list, the chosen seed tracks are the
ids of the first `max_seed_tracks` entries of the top-tracks list, in order. -/
theorem c6_top_order_seed_tracks (top : List Track) (maxT maxA : Nat)
    (hne : top ≠ []) (hnd : (top.map Track.id).Nodup) :
    (select_seed_tracks_and_artists top [] maxT maxA).1 = (top.take maxT).map Track.id := by
  have hN : (0 : ℚ) < (top.length : ℚ) := by
    have : 0 < top.length := List.length_pos.mpr hne
    exact_mod_cast this
  have hpair : (top.enum.map (fun p : ℕ × Track =>
      (p.2.id, ((top.length - p.1 : ℕ) : ℚ) / (top.length : ℚ)))).Pairwise
      (sortKeyDesc (Prod.snd : String × ℚ → ℚ)) := by
    refine List.Pairwise.map _ ?_ (pairwise_fst_lt_enumFrom 0 top)
    intro p q hpq
    show ((top.length - q.1 : ℕ) : ℚ) / (top.length : ℚ)
        ≤ ((top.length - p.1 : ℕ) : ℚ) / (top.length : ℚ)
    rw [div_le_div_iff_of_pos_right hN]
    exact_mod_cast Nat.sub_le_sub_left (le_of_lt hpq) top.length
  simp only [select_seed_tracks_and_artists]
  rw [weightedTracks_no_recent hnd, List.Sorted.insertionSort_eq hpair, ← List.map_take,
    List.map_map]
  rw [show (Prod.fst ∘ fun p : ℕ × Track =>
      (p.2.id, ((top.length - p.1 : ℕ) : ℚ) / (top.length : ℚ)))
      = Track.id ∘ Prod.snd from rfl]
  rw [← List.map_map, List.map_take, List.enum_eq_enumFrom, List.enumFrom_map_snd]

/-- C6 counterexample: with top-tracks `[A, B, B, B]` (duplicate entries, as
the claim's quantification over every list allows), the accumulated weight of
`B` is `3/4 + 2/4 + 1/4 = 3/2 > 1 = ` weight of `A`, so the seed tracks come
out `["B", "A"]`, not the first two entries `["A", "B"]` of the list. -/
theorem c6_counterexample :
    (select_seed_tracks_and_artists
      [⟨"A", "", none, []⟩, ⟨"B", "", none, []⟩, ⟨"B", "", none, []⟩, ⟨"B", "", none, []⟩]
      [] 2 2).1 = ["B", "A"]
    ∧ (select_seed_tracks_and_artists
      [⟨"A", "", none, []⟩, ⟨"B", "", none, []⟩, ⟨"B", "", none, []⟩, ⟨"B", "", none, []⟩]
      [] 2 2).1
      ≠ (([⟨"A", "", none, []⟩, ⟨"B", "", none, []⟩, ⟨"B", "", none, []⟩,
          ⟨"B", "", none, []⟩] : List Track).take 2).map Track.id := by
  have e1 : weightedTracks
      [⟨"A", "", none, []⟩, ⟨"B", "", none, []⟩, ⟨"B", "", none, []⟩, ⟨"B", "", none, []⟩] []
      = [("A", (((4:ℕ):ℚ)) / ((4:ℕ):ℚ)),
         ("B", (((3:ℕ):ℚ) / ((4:ℕ):ℚ) + ((2:ℕ):ℚ) / ((4:ℕ):ℚ)) + ((1:ℕ):ℚ) / ((4:ℕ):ℚ))] := rfl
  have e2 : weightedTracks
      [⟨"A", "", none, []⟩, ⟨"B", "", none, []⟩, ⟨"B", "", none, []⟩, ⟨"B", "", none, []⟩] []
      = [("A", 1), ("B", 3/2)] := by
    rw [e1]
    norm_num
  have e3 : List.insertionSort (sortKeyDesc Prod.snd) [(("A":String), (1:ℚ)), ("B", 3/2)]
      = [("B", 3/2), ("A", 1)] := by
    norm_num [List.insertionSort, List.orderedInsert, sortKeyDesc]
  constructor
  · simp only [select_seed_tracks_and_artists]
    rw [e2, e3]
    rfl
  · simp only [select_seed_tracks_and_artists]
    rw [e2, e3]
    decide

/-- Witness for the amended C6 theorem at a concrete input. -/
theorem c6_top_order_seed_tracks_witness :
    ([⟨"A", "", none, []⟩, ⟨"B", "", none, []⟩] : List Track) ≠ []
    ∧ (([⟨"A", "", none, []⟩, ⟨"B", "", none, []⟩] : List Track).map Track.id).Nodup
    ∧ (select_seed_tracks_and_artists [⟨"A", "", none, []⟩, ⟨"B", "", none, []⟩] [] 1 2).1
      = (([⟨"A", "", none, []⟩, ⟨"B", "", none, []⟩] : List Track).take 1).map Track.id :=
  ⟨by decide, by decide,
    c6_top_order_seed_tracks [⟨"A", "", none, []⟩, ⟨"B", "", none, []⟩] 1 2
      (by decide) (by decide)⟩

/-! ## Diversity Mixer (C1) -/

/-- C1 counterexample: 20 ranked candidates, `limit = 20`, an empty recent
list (so the familiar pool is empty) and sampling that does not fail: the
code returns only the top `int(20 * 0.85) = 17` candidates, not the top 20. -/
theorem c1_counterexample :
    diversity_mix (List.replicate 20 (⟨"x", "", some 50, []⟩ : Track)) [] 20
      (fun pool n => some (pool.take n))
      = List.replicate 17 (⟨"x", "", some 50, []⟩ : Track)
    ∧ List.replicate 17 (⟨"x", "", some 50, []⟩ : Track)
      ≠ (List.replicate 20 (⟨"x", "", some 50, []⟩ : Track)).take 20 := by
  constructor
  · decide
  · decide

/-- C1 amended: with at least one ranked candidate, the mixer returns the top
`limit` candidates alone when sampling from a non-empty familiar pool fails,
but when the familiar pool is empty it returns only the top
`int(limit * 0.85)` candidates. -/
theorem c1_mixer_fallback (sortedRecs recentTracksList : List Track) (limit : Nat)
    (sample : List Track → Nat → Option (List Track))
    (hne : 0 < sortedRecs.length) :
    (familiar_candidates recentTracksList = [] →
      diversity_mix sortedRecs recentTracksList limit sample
        = sortedRecs.take (limit * 85 / 100))
    ∧ (familiar_candidates recentTracksList ≠ [] →
      sample (familiar_candidates recentTracksList)
          (min (limit - limit * 85 / 100) (familiar_candidates recentTracksList).length)
          = none →
      diversity_mix sortedRecs recentTracksList limit sample = sortedRecs.take limit) := by
  constructor
  · intro hpool
    unfold diversity_mix
    rw [if_pos hne, hpool]
    simp
  · intro hpool hsample
    unfold diversity_mix
    rw [if_pos hne]
    simp only [List.isEmpty_iff]
    rw [if_neg hpool, hsample]

/-- Witness for the amended C1 theorem at concrete inputs covering both
branches (empty pool, and failing sampling over a non-empty pool). -/
theorem c1_mixer_fallback_witness :
    (0 < (List.replicate 20 (⟨"x", "", some 50, []⟩ : Track)).length
      ∧ diversity_mix (List.replicate 20 (⟨"x", "", some 50, []⟩ : Track)) [] 20
          (fun pool n => some (pool.take n))
        = (List.replicate 20 (⟨"x", "", some 50, []⟩ : Track)).take 17)
    ∧ diversity_mix (List.replicate 20 (⟨"x", "", some 50, []⟩ : Track))
        [⟨"y", "", some 50, []⟩] 20 (fun _ _ => none)
        = (List.replicate 20 (⟨"x", "", some 50, []⟩ : Track)).take 20 := by
  refine ⟨⟨by decide, ?_⟩, ?_⟩
  · exact (c1_mixer_fallback (List.replicate 20 ⟨"x", "", some 50, []⟩) [] 20
      (fun pool n => some (pool.take n)) (by decide)).1 (by decide)
  · exact (c1_mixer_fallback (List.replicate 20 ⟨"x", "", some 50, []⟩)
      [⟨"y", "", some 50, []⟩] 20 (fun _ _ => none) (by decide)).2 (by decide) (by decide)

/-! ## Similarity Scorer (C2) -/

/-- C2 counterexample: one seed vector `(0,0,0,0)` and a candidate (popularity
60) whose fetched vector is `(1,1,1,1)`.  The similarity is exactly 0, the
code's `if similarity_score > 0` guard fails, and the candidate receives
`popularity_score = 1` alone instead of the claimed
`0.8 × similarity + 0.2 × popularity_score = 0.2`. -/
theorem c2_counterexample :
    score_recommendations [⟨0, 0, 0, 0⟩] (fun _ => some ⟨1, 1, 1, 1⟩)
      [⟨"c", "", some 60, []⟩]
      = [((⟨"c", "", some 60, []⟩ : Track), popularity_score ⟨"c", "", some 60, []⟩)]
    ∧ popularity_score (⟨"c", "", some 60, []⟩ : Track) = 1
    ∧ similarity_score (seedAverages [⟨0, 0, 0, 0⟩]) ⟨1, 1, 1, 1⟩ = 0
    ∧ popularity_score (⟨"c", "", some 60, []⟩ : Track)
      ≠ similarity_score (seedAverages [⟨0, 0, 0, 0⟩]) ⟨1, 1, 1, 1⟩ * (8/10)
        + popularity_score (⟨"c", "", some 60, []⟩ : Track) * (2/10) := by
  have hpop : popularity_score (⟨"c", "", some 60, []⟩ : Track) = 1 := by
    norm_num [popularity_score]
  have hsim : similarity_score (seedAverages [⟨0, 0, 0, 0⟩]) ⟨1, 1, 1, 1⟩ = 0 := by
    norm_num [similarity_score, seedAverages]
  refine ⟨?_, hpop, hsim, ?_⟩
  · simp only [score_recommendations, List.map_cons, List.map_nil]
    rw [if_neg (by rw [hsim]; exact lt_irrefl 0)]
  · rw [hpop, hsim]
    norm_num

/-- C2 amended: with at least one seed descriptor vector, a candidate with a
fetched vector receives `0.8 × similarity + 0.2 × popularity_score` when its
similarity is strictly positive and `popularity_score` alone otherwise (the
code guards the blend with `similarity_score > 0`); a candidate without a
fetched vector receives `popularity_score` alone. -/
theorem c2_score_formula (seedFeatures : List AudioFeatures)
    (featuresOf : String → Option AudioFeatures) (uniqueRecs : List Track)
    (hne : seedFeatures ≠ []) :
    score_recommendations seedFeatures featuresOf uniqueRecs
      = uniqueRecs.map (fun track =>
          match featuresOf track.id with
          | some features =>
            (track,
              if 0 < similarity_score (seedAverages seedFeatures) features
              then similarity_score (seedAverages seedFeatures) features * (8/10)
                + popularity_score track * (2/10)
              else popularity_score track)
          | none => (track, popularity_score track)) := by
  have hpos : 0 < seedFeatures.length := List.length_pos.mpr hne
  simp only [score_recommendations, if_pos hpos]

/-- Witness for the amended C2 theorem at a concrete input. -/
theorem c2_score_formula_witness :
    ([⟨0, 0, 0, 0⟩] : List AudioFeatures) ≠ []
    ∧ score_recommendations [⟨0, 0, 0, 0⟩] (fun _ => none) [⟨"c", "", some 60, []⟩]
      = [⟨"c", "", some 60, []⟩].map (fun track =>
          match (fun _ : String => (none : Option AudioFeatures)) track.id with
          | some features =>
            (track,
              if 0 < similarity_score (seedAverages [⟨0, 0, 0, 0⟩]) features
              then similarity_score (seedAverages [⟨0, 0, 0, 0⟩]) features * (8/10)
                + popularity_score track * (2/10)
              else popularity_score track)
          | none => (track, popularity_score track)) :=
  ⟨by decide,
    c2_score_formula [⟨0, 0, 0, 0⟩] (fun _ => none) [⟨"c", "", some 60, []⟩] (by decide)⟩

/-! ## History Store (C3) -/

theorem mem_dedupStr (x : String) : ∀ (l seen : List String),
    x ∈ dedupStr seen l ↔ x ∈ l ∧ x ∉ seen := by
  intro l
  induction l with
  | nil => intro seen; simp [dedupStr]
  | cons s ss ih =>
    intro seen
    by_cases h : s ∈ seen
    · rw [dedupStr, if_pos h, ih]
      constructor
      · rintro ⟨hm, hs⟩; exact ⟨List.mem_cons_of_mem s hm, hs⟩
      · rintro ⟨hm, hs⟩
        rcases List.mem_cons.mp hm with rfl | hm2
        · exact absurd h hs
        · exact ⟨hm2, hs⟩
    · rw [dedupStr, if_neg h]
      simp only [List.mem_cons, ih, List.mem_cons, not_or]
      constructor
      · rintro (rfl | ⟨hm, hs1, hs2⟩)
        · exact ⟨Or.inl rfl, h⟩
        · exact ⟨Or.inr hm, hs2⟩
      · rintro ⟨rfl | hm, hs⟩
        · exact Or.inl rfl
        · by_cases hx : x = s
          · exact Or.inl hx
          · exact Or.inr ⟨hm, hx, hs⟩

theorem mem_foldl_append_tracks (x : String) : ∀ (ps : List PlaylistEntry) (acc : List String),
    x ∈ ps.foldl (fun acc p => acc ++ p.tracks) acc
      ↔ x ∈ acc ∨ ∃ p ∈ ps, x ∈ p.tracks := by
  intro ps
  induction ps with
  | nil => intro acc; simp
  | cons p ps ih =>
    intro acc
    rw [List.foldl_cons, ih]
    simp only [List.mem_append, List.mem_cons]
    constructor
    · rintro ((hm | hp) | ⟨q, hq, hx⟩)
      · exact Or.inl hm
      · exact Or.inr ⟨p, Or.inl rfl, hp⟩
      · exact Or.inr ⟨q, Or.inr hq, hx⟩
    · rintro (hm | ⟨q, rfl | hq, hx⟩)
      · exact Or.inl (Or.inl hm)
      · exact Or.inl (Or.inr hx)
      · exact Or.inr ⟨q, hq, hx⟩

/-- Membership in `get_recent_track_ids` is exactly membership in the tracks
of one of the most recent `weeks` records (as a record count). -/
theorem mem_get_recent_track_ids (history : List PlaylistEntry) (weeks : Nat) (tid : String) :
    tid ∈ get_recent_track_ids history weeks
      ↔ ∃ p ∈ get_recent_playlists history weeks, tid ∈ p.tracks := by
  unfold get_recent_track_ids
  rw [mem_dedupStr, mem_foldl_append_tracks]
  simp

/-- C3 counterexample: a history of two records, both created within the last
week (timestamps 100 and 200, "now" = 200, one week = 604800).  The claim's
time-window reading makes the exclusion set contain `t1` and `t2`; the code
(`get_recent_track_ids(weeks=1)`) uses `weeks` as a record count and returns
only the single most recent record's `["t2"]`, dropping `t1`. -/
theorem c3_counterexample :
    get_recent_track_ids
      [⟨"p1", "A", 100, ["t1"], none⟩, ⟨"p2", "B", 200, ["t2"], none⟩] 1 = ["t2"]
    ∧ "t1" ∈ spec_week_window_track_ids
      [⟨"p1", "A", 100, ["t1"], none⟩, ⟨"p2", "B", 200, ["t2"], none⟩] 200 1
    ∧ "t1" ∉ get_recent_track_ids
      [⟨"p1", "A", 100, ["t1"], none⟩, ⟨"p2", "B", 200, ["t2"], none⟩] 1 :=
  ⟨by decide, by decide, by decide⟩

/-- C3 amended: the Playlist Assembler's second exclusion pass filters against
exactly the track ids of the single most recent playlist the History Store
records (`weeks = 1` is used as a record count, not a time window),
independent of the gatherer's exclusion set. -/
theorem c3_second_pass_exclusion (env : Env) (args : Args)
    (h1 : ¬(env.top_tracks.isEmpty ∧ env.recent_tracks.isEmpty))
    (h2 : ¬(effective_recommendations env).isEmpty) :
    (generate_playlist env args).previous_track_ids = get_recent_track_ids env.history 1
    ∧ (∀ tid, tid ∈ get_recent_track_ids env.history 1 ↔
        ∃ p ∈ (List.insertionSort (sortKeyDesc PlaylistEntry.created_at) env.history).take 1,
          tid ∈ p.tracks) := by
  constructor
  · simp only [generate_playlist]
    rw [if_neg h1, if_neg h2]
    by_cases hd : args.dry_run
    · rw [if_pos hd]
    · rw [if_neg hd]
      cases env.create_result with
      | none => rfl
      | some pid => repeat first | rfl | split
  · intro tid
    exact mem_get_recent_track_ids env.history 1 tid

/-- Witness for the amended C3 theorem at a concrete input. -/
theorem c3_second_pass_exclusion_witness :
    ¬((⟨[⟨"t", "u", some 50, []⟩], [], [⟨"t", "u", some 50, []⟩], [], [],
        [⟨"p1", "A", 100, ["t1"], none⟩], some "p", true, "d", 0⟩ : Env).top_tracks.isEmpty
      ∧ (⟨[⟨"t", "u", some 50, []⟩], [], [⟨"t", "u", some 50, []⟩], [], [],
        [⟨"p1", "A", 100, ["t1"], none⟩], some "p", true, "d", 0⟩ : Env).recent_tracks.isEmpty)
    ∧ ¬(effective_recommendations
        ⟨[⟨"t", "u", some 50, []⟩], [], [⟨"t", "u", some 50, []⟩], [], [],
        [⟨"p1", "A", 100, ["t1"], none⟩], some "p", true, "d", 0⟩).isEmpty
    ∧ (generate_playlist
        ⟨[⟨"t", "u", some 50, []⟩], [], [⟨"t", "u", some 50, []⟩], [], [],
        [⟨"p1", "A", 100, ["t1"], none⟩], some "p", true, "d", 0⟩
        ⟨none, 5, false, false⟩).previous_track_ids
      = get_recent_track_ids [⟨"p1", "A", 100, ["t1"], none⟩] 1 :=
  ⟨by decide, by decide,
    (c3_second_pass_exclusion
      ⟨[⟨"t", "u", some 50, []⟩], [], [⟨"t", "u", some 50, []⟩], [], [],
        [⟨"p1", "A", 100, ["t1"], none⟩], some "p", true, "d", 0⟩
      ⟨none, 5, false, false⟩ (by decide) (by decide)).1⟩

/-! ## Run orchestration (C4, C5, C10) -/

/-- C4: in every run in which the playlist-creation call was made and returned
no playlist, or the track-addition call reported failure, the run returns
failure (`None`), no record is appended, and the History Store is unchanged. -/
theorem c4_write_failure_no_history (env : Env) (args : Args)
    (h : ((generate_playlist env args).create_called = true ∧ env.create_result = none)
      ∨ (generate_playlist env args).add_result = some false) :
    (generate_playlist env args).result = none
    ∧ (generate_playlist env args).history_appended = false
    ∧ (generate_playlist env args).final_history = env.history := by
  unfold generate_playlist at h ⊢
  by_cases h1 : env.top_tracks.isEmpty ∧ env.recent_tracks.isEmpty
  · rw [if_pos h1]
    exact ⟨rfl, rfl, rfl⟩
  · rw [if_neg h1] at h ⊢
    by_cases h2 : (effective_recommendations env).isEmpty
    · rw [if_pos h2]
      exact ⟨rfl, rfl, rfl⟩
    · rw [if_neg h2] at h ⊢
      by_cases hd : args.dry_run
      · rw [if_pos hd] at h
        simp at h
      · rw [if_neg hd] at h ⊢
        cases hc : env.create_result with
        | none =>
          rw [hc] at h
          exact ⟨rfl, rfl, rfl⟩
        | some pid =>
          rw [hc] at h
          dsimp only at h ⊢
          by_cases hb : add_tracks_to_playlist
              (List.map Track.uri
                (if (List.take args.tracks
                      (filter_tracks (effective_recommendations env)
                        (get_recent_track_ids env.history 1))).isEmpty = true then
                  List.take args.tracks (effective_recommendations env)
                else
                  List.take args.tracks
                    (filter_tracks (effective_recommendations env)
                      (get_recent_track_ids env.history 1))))
              env.add_ok = true
          · rw [if_pos hb] at h
            simp at h
          · rw [if_neg hb] at h ⊢
            exact ⟨rfl, rfl, rfl⟩

/-- Witness for C4 at a concrete environment whose creation call fails. -/
theorem c4_write_failure_no_history_witness :
    (((generate_playlist
        ⟨[⟨"t", "u", some 50, []⟩], [], [⟨"t", "u", some 50, []⟩], [], [], [],
          none, true, "d", 0⟩ ⟨none, 5, false, false⟩).create_called = true
      ∧ (⟨[⟨"t", "u", some 50, []⟩], [], [⟨"t", "u", some 50, []⟩], [], [], [],
          none, true, "d", 0⟩ : Env).create_result = none)
      ∨ (generate_playlist
        ⟨[⟨"t", "u", some 50, []⟩], [], [⟨"t", "u", some 50, []⟩], [], [], [],
          none, true, "d", 0⟩ ⟨none, 5, false, false⟩).add_result = some false)
    ∧ (generate_playlist
        ⟨[⟨"t", "u", some 50, []⟩], [], [⟨"t", "u", some 50, []⟩], [], [], [],
          none, true, "d", 0⟩ ⟨none, 5, false, false⟩).result = none
    ∧ (generate_playlist
        ⟨[⟨"t", "u", some 50, []⟩], [], [⟨"t", "u", some 50, []⟩], [], [], [],
          none, true, "d", 0⟩ ⟨none, 5, false, false⟩).history_appended = false :=
  ⟨Or.inl ⟨by decide, by decide⟩,
    (c4_write_failure_no_history
      ⟨[⟨"t", "u", some 50, []⟩], [], [⟨"t", "u", some 50, []⟩], [], [], [],
        none, true, "d", 0⟩ ⟨none, 5, false, false⟩
      (Or.inl ⟨by decide, by decide⟩)).1,
    (c4_write_failure_no_history
      ⟨[⟨"t", "u", some 50, []⟩], [], [⟨"t", "u", some 50, []⟩], [], [], [],
        none, true, "d", 0⟩ ⟨none, 5, false, false⟩
      (Or.inl ⟨by decide, by decide⟩)).2.1⟩

/-- C5: a dry run issues no playlist-creation call, no track-addition call and
no History Store append, and computes the same seeds, recommendation chain,
history filtering, planned track list and playlist name as the live run with
the same arguments; when the pipeline does not fail early, the dry run
returns a mock result describing the planned playlist. -/
theorem c5_dry_run_frame (env : Env) (nm : Option String) (tr : Nat) (pb : Bool) :
    (generate_playlist env ⟨nm, tr, pb, true⟩).create_called = false
    ∧ (generate_playlist env ⟨nm, tr, pb, true⟩).add_called = false
    ∧ (generate_playlist env ⟨nm, tr, pb, true⟩).add_result = none
    ∧ (generate_playlist env ⟨nm, tr, pb, true⟩).history_appended = false
    ∧ (generate_playlist env ⟨nm, tr, pb, true⟩).final_history = env.history
    ∧ (generate_playlist env ⟨nm, tr, pb, true⟩).planned_tracks
      = (generate_playlist env ⟨nm, tr, pb, false⟩).planned_tracks
    ∧ (generate_playlist env ⟨nm, tr, pb, true⟩).seed_track_ids
      = (generate_playlist env ⟨nm, tr, pb, false⟩).seed_track_ids
    ∧ (generate_playlist env ⟨nm, tr, pb, true⟩).seed_artist_ids
      = (generate_playlist env ⟨nm, tr, pb, false⟩).seed_artist_ids
    ∧ (generate_playlist env ⟨nm, tr, pb, true⟩).previous_track_ids
      = (generate_playlist env ⟨nm, tr, pb, false⟩).previous_track_ids
    ∧ (generate_playlist env ⟨nm, tr, pb, true⟩).playlist_name
      = (generate_playlist env ⟨nm, tr, pb, false⟩).playlist_name
    ∧ (¬(env.top_tracks.isEmpty ∧ env.recent_tracks.isEmpty) →
       ¬(effective_recommendations env).isEmpty →
       (generate_playlist env ⟨nm, tr, pb, true⟩).result
         = some ⟨"dry-run", (generate_playlist env ⟨nm, tr, pb, true⟩).playlist_name,
             (generate_playlist env ⟨nm, tr, pb, true⟩).planned_tracks.length, true⟩) := by
  unfold generate_playlist
  by_cases h1 : env.top_tracks.isEmpty ∧ env.recent_tracks.isEmpty
  · rw [if_pos h1, if_pos h1]
    exact ⟨rfl, rfl, rfl, rfl, rfl, rfl, rfl, rfl, rfl, rfl, fun hk => absurd h1 hk⟩
  · rw [if_neg h1, if_neg h1]
    by_cases h2 : (effective_recommendations env).isEmpty
    · rw [if_pos h2, if_pos h2]
      exact ⟨rfl, rfl, rfl, rfl, rfl, rfl, rfl, rfl, rfl, rfl, fun _ hk => absurd h2 hk⟩
    · rw [if_neg h2, if_neg h2]
      refine ⟨rfl, rfl, rfl, rfl, rfl, ?_, ?_, ?_, ?_, ?_, fun _ _ => rfl⟩
      all_goals
        cases env.create_result with
        | none => rfl
        | some pid =>
          dsimp only
          repeat first | rfl | split

/-- C10: an empty uri list makes `add_tracks_to_playlist` return `False`
before any remote `playlist_add_items` call (no chunk is formed); hence a
live run requesting zero tracks issues the creation call but then fails,
returning `None` and leaving the History Store unchanged. -/
theorem c10_zero_tracks_failure :
    (∀ ok : Bool, add_tracks_to_playlist [] ok = false)
    ∧ add_tracks_chunks [] = []
    ∧ (∀ (env : Env) (nm : Option String) (pb : Bool) (pid : String),
        env.top_tracks ≠ [] → env.discovery_recs ≠ [] → env.create_result = some pid →
        (generate_playlist env ⟨nm, 0, pb, false⟩).create_called = true
        ∧ (generate_playlist env ⟨nm, 0, pb, false⟩).add_result = some false
        ∧ (generate_playlist env ⟨nm, 0, pb, false⟩).result = none
        ∧ (generate_playlist env ⟨nm, 0, pb, false⟩).history_appended = false
        ∧ (generate_playlist env ⟨nm, 0, pb, false⟩).final_history = env.history) := by
  refine ⟨fun ok => rfl, by simp [add_tracks_chunks], ?_⟩
  intro env nm pb pid h1 h2 hc
  have h1b : ¬(env.top_tracks.isEmpty ∧ env.recent_tracks.isEmpty) :=
    fun hh => h1 (List.isEmpty_iff.mp hh.1)
  have h2b : ¬env.discovery_recs.isEmpty = true :=
    fun hh => h2 (List.isEmpty_iff.mp hh)
  have heff : effective_recommendations env = env.discovery_recs := by
    simp only [effective_recommendations]
    rw [if_neg h2b, if_neg h2b]
  have h2c : ¬(effective_recommendations env).isEmpty := by
    rw [heff]; exact h2b
  unfold generate_playlist
  rw [if_neg h1b, if_neg h2c, hc]
  exact ⟨rfl, rfl, rfl, rfl, rfl⟩
